import Mathlib

/-!
Verification development for the SentryData compiler (sentrydata.py), a
Forth-style RPN mini-language front-end: a hand-written line-oriented lexer
(`lexical_analysis`) and a stack-machine evaluator (`execute_stack_machine`).

Modelling conventions, mirroring the Python source:
* Python floats are modelled as rationals (`ℚ`); every numeric literal the
  lexer accepts is a decimal fraction, and no claim depends on binary
  floating-point rounding.  Python ints arising from bool arithmetic
  (e.g. `True + True`) are modelled as numbers as well.
* Python's character classification methods (`isspace`, `isdigit`,
  `isalpha`, `isalnum`, `str.upper`) are modelled on the ASCII range,
  which covers every input the claims quantify over.
* Host exceptions (`ValueError` from `float()`, `ZeroDivisionError`,
  `TypeError` from unsupported operand types, `AttributeError` from
  `.upper()` on a non-string) are modelled by `Except PyError`; an
  exception aborts the surrounding call and discards its local results,
  exactly as an uncaught Python exception does.
* Python's operand stack is `self.stack`, a list whose TOP is the LAST
  element (`append`/`pop`).  Here the stack is a `List Value` whose top is
  the HEAD; snapshots are stored in the same top-first order.
* The bounded loops of the scanner are written with an explicit fuel
  argument so that every definition is structurally recursive and
  computable by the kernel; each loop iteration consumes at least one
  character, so fuel `length + 1` (used by the wrapper `scanLineAt`) is
  never exhausted.
-/

/-- Host (Python) exceptions that the source can raise. -/
inductive PyError : Type where
  | valueError
  | zeroDivisionError
  | typeError
  | attributeError
deriving DecidableEq, Repr

/-- A dynamic value on the operand stack: Python float/int, str, or bool.
Token values (floats and strings) use the same type. -/
inductive Value : Type where
  | num (q : ℚ)
  | str (s : String)
  | bool (b : Bool)
deriving DecidableEq, Repr

/-- Token produced by the lexer (dataclass `Token` in the source). -/
structure Token where
  type : String
  value : Value
  line : ℕ
  column : ℕ
deriving DecidableEq, Repr

/-- Diagnostic (dataclass `CompilerError` in the source); `type` is one of
the category strings "LÉXICO" (lexical) or "EJECUCIÓN" (runtime). -/
structure CompilerError where
  line : ℕ
  type : String
  description : String
deriving DecidableEq, Repr

/-- The double-quote character (written via its code point). -/
def quoteC : Char := Char.ofNat 34

/-- The apostrophe character (written via its code point). -/
def aposC : Char := Char.ofNat 39

/-- Python `str.isspace` on the ASCII range. -/
def pyIsSpace (c : Char) : Bool :=
  c = ' ' || c = '\t' || c = '\n' || c = '\r' || c = Char.ofNat 11 || c = Char.ofNat 12

/-- The characters Python `str.splitlines` treats as line boundaries:
LF, CR, VT, FF, FS, GS, RS, NEL, LINE SEPARATOR and PARAGRAPH SEPARATOR. -/
def pyIsLineBreak (c : Char) : Bool :=
  c = '\n' || c = '\r' || c = Char.ofNat 11 || c = Char.ofNat 12 || c = Char.ofNat 28 ||
  c = Char.ofNat 29 || c = Char.ofNat 30 || c = Char.ofNat 133 || c = Char.ofNat 8232 ||
  c = Char.ofNat 8233

/-- Python `str.isdigit` on the ASCII range. -/
def pyIsDigit (c : Char) : Bool := c.isDigit

/-- Python `str.isalpha` on the ASCII range. -/
def pyIsAlpha (c : Char) : Bool := c.isAlpha

/-- Character of a numeric literal: `line[i].isdigit() or line[i] == "."`. -/
def isNumChar (c : Char) : Bool := pyIsDigit c || c = '.'

/-- Character of an identifier: `line[i].isalnum() or line[i] == "_"`. -/
def isIdentChar (c : Char) : Bool := c.isAlphanum || c = '_'

/-- Python `str.upper` on the ASCII range. -/
def pyUpper (s : String) : String := String.mk (s.data.map Char.toUpper)

/-- Value of a string of decimal digits, most significant first. -/
def digitsVal (ds : List Char) : ℕ :=
  ds.foldl (fun acc c => acc * 10 + (c.toNat - 48)) 0

/-- Split a character list at every period. -/
def splitOnDot : List Char → List (List Char)
  | [] => [[]]
  | c :: cs =>
    if c = '.' then [] :: splitOnDot cs
    else
      match splitOnDot cs with
      | seg :: rest => (c :: seg) :: rest
      | [] => [[c]]

/-- Python `float()` restricted to the texts the scanner can pass it:
nonempty strings of digits and periods beginning with a digit.  Such a text
is a valid float literal iff it contains at most one period; otherwise
`float()` raises `ValueError` (modelled as `none`). -/
def pyFloat (cs : List Char) : Option ℚ :=
  match splitOnDot cs with
  | [ip] => some (digitsVal ip)
  | [ip, fp] => some ((digitsVal ip : ℚ) + (digitsVal fp : ℚ) / ((10 ^ fp.length : ℕ) : ℚ))
  | _ => none

/-- The source's `operators` dict: token type of an operator text, two- and
one-character operators together. -/
def operators (s : String) : Option String :=
  if s = "==" then some "OP_EQ"
  else if s = "!=" then some "OP_NEQ"
  else if s = "<=" then some "OP_LTE"
  else if s = ">=" then some "OP_GTE"
  else if s = "+" then some "OP_ADD"
  else if s = "-" then some "OP_SUB"
  else if s = "*" then some "OP_MUL"
  else if s = "/" then some "OP_DIV"
  else if s = "<" then some "OP_LT"
  else if s = ">" then some "OP_GT"
  else none

/-- The source's `keywords` set. -/
def keywords : List String :=
  ["AND", "OR", "NOT", "IF", "THEN", "ELSE", "ENDIF",
   "DELETE", "MODIFY", "EXTRACT", "FILTER", "LOAD", "SAVE",
   "DUP", "DROP", "SWAP", "PRINT"]

/-- The lexical diagnostic text for an unrecognized character
(`f"Carácter no reconocido: '{ch}'"`). -/
def unrecognizedMsg (c : Char) : String :=
  "Carácter no reconocido: " ++ String.mk [aposC, c, aposC]

/-- Result of one iteration of the scanner's `while i < len(line)` loop:
either continue scanning at `rest`/`col2` after emitting the given tokens
and diagnostics, or exit the loop (the unterminated-string arm sets `i` to
the end of the line), or raise a host exception. -/
inductive StepRes : Type where
  | cont (toks : List Token) (errs : List CompilerError) (rest : List Char) (col2 : ℕ)
  | stop (toks : List Token) (errs : List CompilerError)
  | raise (e : PyError)
deriving DecidableEq, Repr

/-- The body of the scanner loop (source lines 61-150) at current character
`c`, remaining characters `cs`, line `ln` (`self.current_line`) and column
`col`; the source advances `i` and `column` in lockstep, so a single index
suffices. -/
def scanStep (ln : ℕ) (c : Char) (cs : List Char) (col : ℕ) : StepRes :=
  if pyIsSpace c then
    .cont [] [] cs (col + 1)
  else if pyIsDigit c then
    -- greedy digits-and-periods scan, then float(); ValueError aborts the lex
    let numCs := (c :: cs).takeWhile isNumChar
    let rest := (c :: cs).dropWhile isNumChar
    match pyFloat numCs with
    | none => .raise .valueError
    | some v => .cont [⟨"NUMBER", .num v, ln, col⟩] [] rest (col + numCs.length)
  else if c = quoteC then
    -- string literal: consume up to the next quote on the same line
    let body := cs.takeWhile (fun d => d ≠ quoteC)
    let rest := cs.dropWhile (fun d => d ≠ quoteC)
    match rest with
    | _ :: rest2 =>
      .cont [⟨"STRING", .str (String.mk body), ln, col⟩] [] rest2 (col + body.length + 2)
    | [] =>
      -- unterminated: diagnostic, i has reached end of line, loop exits
      .stop [] [⟨ln, "LÉXICO", "String sin cerrar"⟩]
  else if pyIsAlpha c || c = '_' then
    let identCs := (c :: cs).takeWhile isIdentChar
    let rest := (c :: cs).dropWhile isIdentChar
    let ident := String.mk identCs
    let upper := pyUpper ident
    let tok : Token :=
      if upper ∈ keywords then ⟨"KEYWORD", .str upper, ln, col⟩
      else ⟨"IDENTIFIER", .str ident, ln, col⟩
    .cont [tok] [] rest (col + identCs.length)
  else
    -- operators: two-character lookup first (only when i+1 < len), then
    -- one-character, then the unrecognized-character diagnostic
    match cs with
    | c2 :: rest2 =>
      match operators (String.mk [c, c2]) with
      | some ty => .cont [⟨ty, .str (String.mk [c, c2]), ln, col⟩] [] rest2 (col + 2)
      | none =>
        match operators (String.mk [c]) with
        | some ty => .cont [⟨ty, .str (String.mk [c]), ln, col⟩] [] cs (col + 1)
        | none => .cont [] [⟨ln, "LÉXICO", unrecognizedMsg c⟩] cs (col + 1)
    | [] =>
      match operators (String.mk [c]) with
      | some ty => .cont [⟨ty, .str (String.mk [c]), ln, col⟩] [] [] (col + 1)
      | none => .cont [] [⟨ln, "LÉXICO", unrecognizedMsg c⟩] [] (col + 1)

/-- The scanner's `while i < len(line)` loop, driven by `scanStep`.  The
fuel argument makes the recursion structural; every iteration consumes at
least one character, so fuel `length + 1` (used by `scanLineAt`) never runs
out. -/
def scanLineF : ℕ → ℕ → List Char → ℕ → Except PyError (List Token × List CompilerError)
  | 0, _, _, _ => .ok ([], [])
  | _ + 1, _, [], _ => .ok ([], [])
  | fuel + 1, ln, c :: cs, col =>
    match scanStep ln c cs col with
    | .raise e => .error e
    | .stop ts es => .ok (ts, es)
    | .cont ts es rest col2 =>
      match scanLineF fuel ln rest col2 with
      | .error e => .error e
      | .ok (ts2, es2) => .ok (ts ++ ts2, es ++ es2)

/-- Scan one line starting at an arbitrary column. -/
def scanLineAt (ln : ℕ) (cs : List Char) (col : ℕ) :
    Except PyError (List Token × List CompilerError) :=
  scanLineF (cs.length + 1) ln cs col

/-- Scan one (stripped, non-skipped) line from column 0. -/
def scanLine (ln : ℕ) (cs : List Char) :
    Except PyError (List Token × List CompilerError) :=
  scanLineAt ln cs 0

/-- Python `str.splitlines` for texts whose only line separator is `\n`. -/
def pySplitlinesAux (cur : List Char) : List Char → List (List Char)
  | [] => if cur.isEmpty then [] else [cur.reverse]
  | c :: rest =>
    if c = '\n' then cur.reverse :: pySplitlinesAux [] rest
    else pySplitlinesAux (c :: cur) rest

/-- Python `code.splitlines()` (newline-separated texts). -/
def pySplitlines (cs : List Char) : List (List Char) := pySplitlinesAux [] cs

/-- Python `str.strip` (whitespace from both ends, ASCII model). -/
def pyStrip (cs : List Char) : List Char :=
  ((cs.dropWhile pyIsSpace).reverse.dropWhile pyIsSpace).reverse

/-- `line.startswith("//")`. -/
def startsWithComment : List Char → Bool
  | '/' :: '/' :: _ => true
  | _ => false

/-- The per-line loop of `lexical_analysis` (source lines 51-151).  `idx` is
the 0-based `line_index`, `cur` the value of `self.current_line` before this
iteration (1 from the constructor).  Returns tokens, diagnostics, and the
final value of `self.current_line` — the source sets it for every line,
skipped or not, and never resets it afterwards. -/
def lexLines : ℕ → ℕ → List (List Char) → Except PyError (List Token × List CompilerError × ℕ)
  | _, cur, [] => .ok ([], [], cur)
  | idx, _, raw :: rest =>
    let curLine := idx + 1
    let line := pyStrip raw
    if line.isEmpty || startsWithComment line then
      lexLines (idx + 1) curLine rest
    else
      match scanLine curLine line with
      | .error e => .error e
      | .ok (ts, es) =>
        match lexLines (idx + 1) curLine rest with
        | .error e => .error e
        | .ok (ts2, es2, fl) => .ok (ts ++ ts2, es ++ es2, fl)

/-- `lexical_analysis` on a character list. -/
def lexChars (code : List Char) : Except PyError (List Token × List CompilerError × ℕ) :=
  lexLines 0 1 (pySplitlines code)

/-- FASE 1: `SentryDataCompiler.lexical_analysis` on a fresh compiler.
Returns the token list, the lexical diagnostics, and the final
`self.current_line`.  An unhandled host exception (ValueError from
`float()`) is `.error`. -/
def lexical_analysis (code : String) : Except PyError (List Token × List CompilerError × ℕ) :=
  lexChars code.data

/-- Python truthiness `bool(x)`: zero, empty text and `False` are falsy. -/
def pyBool : Value → Bool
  | .num q => q != 0
  | .str s => s != ""
  | .bool b => b

/-- `x` as a Python number, when `x` supports arithmetic (bools are ints). -/
def toNumQ : Value → Option ℚ
  | .num q => some q
  | .bool b => some (if b then 1 else 0)
  | .str _ => none

/-- Python `x + y` on stack values. -/
def pyAdd (x y : Value) : Except PyError Value :=
  match toNumQ x, toNumQ y with
  | some p, some q => .ok (.num (p + q))
  | _, _ =>
    match x, y with
    | .str s, .str t => .ok (.str (s ++ t))
    | _, _ => .error .typeError

/-- Python `x - y` on stack values. -/
def pySub (x y : Value) : Except PyError Value :=
  match toNumQ x, toNumQ y with
  | some p, some q => .ok (.num (p - q))
  | _, _ => .error .typeError

/-- Python `x * y` on stack values.  String repetition by a float raises
`TypeError`; repetition by a bool (an int) yields zero or one copy. -/
def pyMul (x y : Value) : Except PyError Value :=
  match toNumQ x, toNumQ y with
  | some p, some q => .ok (.num (p * q))
  | _, _ =>
    match x, y with
    | .str s, .bool b => .ok (.str (if b then s else ""))
    | .bool b, .str s => .ok (.str (if b then s else ""))
    | _, _ => .error .typeError

/-- Python `x / y` on stack values: `ZeroDivisionError` when the divisor is
zero, `TypeError` when an operand is a string. -/
def pyDiv (x y : Value) : Except PyError Value :=
  match toNumQ x, toNumQ y with
  | some p, some q => if q = 0 then .error .zeroDivisionError else .ok (.num (p / q))
  | _, _ => .error .typeError

/-- Python `x == y` on stack values (never raises; numbers and bools compare
by numeric value, strings by text, mixed kinds are unequal). -/
def pyEqV (x y : Value) : Bool :=
  match toNumQ x, toNumQ y with
  | some p, some q => p == q
  | _, _ =>
    match x, y with
    | .str s, .str t => s == t
    | _, _ => false

/-- Python `x < y` on stack values (strings compare lexicographically by
code point; a string against a number raises `TypeError`). -/
def pyLtV (x y : Value) : Except PyError Bool :=
  match toNumQ x, toNumQ y with
  | some p, some q => .ok (decide (p < q))
  | _, _ =>
    match x, y with
    | .str s, .str t => .ok (decide (s < t))
    | _, _ => .error .typeError

/-- Python `x <= y` on stack values. -/
def pyLeV (x y : Value) : Except PyError Bool :=
  match toNumQ x, toNumQ y with
  | some p, some q => .ok (decide (p ≤ q))
  | _, _ =>
    match x, y with
    | .str s, .str t => .ok (decide (s < t) || s == t)
    | _, _ => .error .typeError

/-- Evaluator state: the compiler's `self.stack` (top first), `self.errors`
and `self.current_line` fields. -/
structure EvalState where
  stack : List Value
  errors : List CompilerError
  current_line : ℕ
deriving DecidableEq, Repr

/-- The action string `process_token` returns, as one constructor per return
site of the source (the Python builds a formatted string; claims depend only
on which site produced it and on its operands):
* `pushNumber v` / `pushString v` / `pushIdentifier v` — `f"PUSH {...}"`;
* `binOpOk op a b r` — `f"{op_name}: {b} {op_name} {a} = {result}"`;
* `binOpUnderflow op` — `f"ERROR: Stack underflow en {op_name}"`;
* `notOk a r` — `f"NOT: !{a} = {result}"`;
* `notUnderflow` — `"ERROR: Stack underflow en NOT"`;
* `keywordUnimplemented kw` — `f"KEYWORD {kw} (sin implementar)"`;
* `ignored t` — `f"IGNORADO {t}"`. -/
inductive ExecAction : Type where
  | pushNumber (v : Value)
  | pushString (v : Value)
  | pushIdentifier (v : Value)
  | binOpOk (op : String) (a b r : Value)
  | binOpUnderflow (op : String)
  | notOk (a : Value) (r : Bool)
  | notUnderflow
  | keywordUnimplemented (kw : String)
  | ignored (t : String)
deriving DecidableEq, Repr

/-- `SentryDataCompiler.execute_bin_op` (source lines 230-242): with fewer
than two stack values (the `_` arm: `[]` or a singleton), append one runtime
underflow diagnostic — stamped with `self.current_line` — and leave the
stack alone; otherwise pop `a` (top), pop `b`, compute `func(a, b)` (which
may raise) and push the result. -/
def execute_bin_op (op_name : String) (func : Value → Value → Except PyError Value)
    (st : EvalState) : Except PyError (EvalState × ExecAction) :=
  match st.stack with
  | a :: b :: rest =>
    match func a b with
    | .error e => .error e
    | .ok r => .ok ({ st with stack := r :: rest }, .binOpOk op_name a b r)
  | _ =>
    .ok ({ st with errors := st.errors ++
            [⟨st.current_line, "EJECUCIÓN", "Stack underflow: " ++ op_name ++ " requiere 2 operandos"⟩] },
         .binOpUnderflow op_name)

/-- `SentryDataCompiler.process_token` (source lines 171-228): dispatch on
the token type; literals push their value, operators run `execute_bin_op`
with the source's lambda (`func(a, b)` computes `b OP a`), `NOT` pops one
value (`len < 1` iff the stack is empty) and stamps its underflow diagnostic
with `token.line`, other keywords are unimplemented no-ops.  The `KEYWORD`
branch calls `.upper()` on the token value, an `AttributeError` if that
value is not a string. -/
def process_token (tok : Token) (st : EvalState) : Except PyError (EvalState × ExecAction) :=
  let t := tok.type
  if t = "NUMBER" then .ok ({ st with stack := tok.value :: st.stack }, .pushNumber tok.value)
  else if t = "STRING" then .ok ({ st with stack := tok.value :: st.stack }, .pushString tok.value)
  else if t = "IDENTIFIER" then .ok ({ st with stack := tok.value :: st.stack }, .pushIdentifier tok.value)
  else if t = "OP_ADD" then execute_bin_op "+" (fun a b => pyAdd b a) st
  else if t = "OP_SUB" then execute_bin_op "-" (fun a b => pySub b a) st
  else if t = "OP_MUL" then execute_bin_op "*" (fun a b => pyMul b a) st
  else if t = "OP_DIV" then execute_bin_op "/" (fun a b => pyDiv b a) st
  else if t = "OP_EQ" then execute_bin_op "==" (fun a b => .ok (.bool (pyEqV b a))) st
  else if t = "OP_NEQ" then execute_bin_op "!=" (fun a b => .ok (.bool (!pyEqV b a))) st
  else if t = "OP_LT" then execute_bin_op "<" (fun a b => (pyLtV b a).map Value.bool) st
  else if t = "OP_GT" then execute_bin_op ">" (fun a b => (pyLtV a b).map Value.bool) st
  else if t = "OP_LTE" then execute_bin_op "<=" (fun a b => (pyLeV b a).map Value.bool) st
  else if t = "OP_GTE" then execute_bin_op ">=" (fun a b => (pyLeV a b).map Value.bool) st
  else if t = "KEYWORD" then
    match tok.value with
    | .str s0 =>
      let kw := pyUpper s0
      if kw = "AND" then execute_bin_op "AND" (fun a b => .ok (.bool (pyBool b && pyBool a))) st
      else if kw = "OR" then execute_bin_op "OR" (fun a b => .ok (.bool (pyBool b || pyBool a))) st
      else if kw = "NOT" then
        match st.stack with
        | [] =>
          .ok ({ st with errors := st.errors ++
                  [⟨tok.line, "EJECUCIÓN", "Stack underflow: NOT requiere 1 operando"⟩] },
               .notUnderflow)
        | a :: rest =>
          .ok ({ st with stack := .bool (!pyBool a) :: rest }, .notOk a (!pyBool a))
      else .ok (st, .keywordUnimplemented kw)
    | _ => .error .attributeError
  else .ok (st, .ignored t)

/-- One execution-trace record (the dict built at source lines 162-167). -/
structure ExecRecord where
  step : ℕ
  token : Token
  action : ExecAction
  stack_state : List Value
deriving DecidableEq, Repr

/-- The `for index, token in enumerate(tokens)` loop of
`execute_stack_machine`; `idx` is the 0-based index.  A host exception
raised by `process_token` propagates, discarding the log built so far. -/
def execMachineAux (st : EvalState) (idx : ℕ) :
    List Token → Except PyError (EvalState × List ExecRecord)
  | [] => .ok (st, [])
  | tok :: rest =>
    match process_token tok st with
    | .error e => .error e
    | .ok (st1, act) =>
      match execMachineAux st1 (idx + 1) rest with
      | .error e => .error e
      | .ok (stf, log) =>
        .ok (stf, ⟨idx + 1, tok, act, st1.stack⟩ :: log)

/-- FASE 2: `SentryDataCompiler.execute_stack_machine` (source lines
155-169): reset `self.stack` to `[]`, then process every token in order,
appending one record per token. -/
def execute_stack_machine (st : EvalState) (tokens : List Token) :
    Except PyError (EvalState × List ExecRecord) :=
  execMachineAux { st with stack := [] } 0 tokens

/-- Result of one full REPL iteration's core work. -/
structure RunResult where
  tokens : List Token
  log : List ExecRecord
  stack : List Value
  errors : List CompilerError
deriving DecidableEq, Repr

/-- One REPL iteration of `main` on a fresh `SentryDataCompiler`:
`lexical_analysis` then `execute_stack_machine` on its tokens; the runtime
diagnostics are appended to `self.errors` after the lexical ones, and
`self.current_line` keeps the value the lexer left in it. -/
def sentryRun (code : String) : Except PyError RunResult :=
  match lexical_analysis code with
  | .error e => .error e
  | .ok (toks, lexErrs, finalLine) =>
    match execute_stack_machine ⟨[], lexErrs, finalLine⟩ toks with
    | .error e => .error e
    | .ok (st, log) => .ok ⟨toks, log, st.stack, st.errors⟩

/-! ### Helper lemmas: character classes, lists, fuel adequacy -/

theorem length_dropWhile_le' (p : Char → Bool) :
    ∀ l : List Char, (l.dropWhile p).length ≤ l.length := by
  intro l
  induction l with
  | nil => simp [List.dropWhile]
  | cons c cs ih =>
    rw [List.dropWhile_cons]
    by_cases h : p c = true
    · simp only [h, if_true]
      exact Nat.le_succ_of_le ih
    · simp [h]

theorem isDigit_isAlpha_false {c : Char} (h : c.isDigit = true) : c.isAlpha = false := by
  simp only [Char.isDigit, Char.isAlpha, Char.isUpper, Char.isLower, Bool.and_eq_true,
    decide_eq_true_eq, ge_iff_le] at *
  obtain ⟨h1, h2⟩ := h
  have h2n : c.val.toNat ≤ (57 : UInt32).toNat := h2
  have e57 : (57 : UInt32).toNat = 57 := rfl
  simp only [Bool.or_eq_false_iff, Bool.and_eq_false_iff, decide_eq_false_iff_not, not_le]
  constructor
  · left
    show (65 : UInt32).toNat ≤ c.val.toNat → False
    have e65 : (65 : UInt32).toNat = 65 := rfl
    omega
  · left
    show (97 : UInt32).toNat ≤ c.val.toNat → False
    have e97 : (97 : UInt32).toNat = 97 := rfl
    omega

theorem space_cases {c : Char} (h : pyIsSpace c = true) :
    c = ' ' ∨ c = '\t' ∨ c = '\n' ∨ c = '\r' ∨ c = Char.ofNat 11 ∨ c = Char.ofNat 12 := by
  simp only [pyIsSpace, Bool.or_eq_true, decide_eq_true_eq] at h
  tauto

theorem alphaUnd_not_space {c : Char} (h : (pyIsAlpha c || c = '_') = true) :
    pyIsSpace c = false := by
  cases hs : pyIsSpace c with
  | false => rfl
  | true =>
    rcases space_cases hs with h1 | h1 | h1 | h1 | h1 | h1 <;> subst h1 <;> revert h <;> decide

theorem alphaUnd_not_digit {c : Char} (h : (pyIsAlpha c || c = '_') = true) :
    pyIsDigit c = false := by
  cases hd : pyIsDigit c with
  | false => rfl
  | true =>
    simp only [Bool.or_eq_true, decide_eq_true_eq] at h
    rcases h with h | h
    · rw [pyIsAlpha] at h
      rw [isDigit_isAlpha_false hd] at h
      cases h
    · subst h
      cases hd

theorem alphaUnd_not_quote {c : Char} (h : (pyIsAlpha c || c = '_') = true) :
    (c = quoteC) = False := by
  simp only [eq_iff_iff, iff_false]
  intro hq
  subst hq
  revert h
  decide

theorem digit_not_space {c : Char} (h : pyIsDigit c = true) : pyIsSpace c = false := by
  cases hs : pyIsSpace c with
  | false => rfl
  | true =>
    rcases space_cases hs with h1 | h1 | h1 | h1 | h1 | h1 <;> subst h1 <;> revert h <;> decide

theorem alphaUnd_ident {c : Char} (h : (pyIsAlpha c || c = '_') = true) :
    isIdentChar c = true := by
  simp only [Bool.or_eq_true, decide_eq_true_eq] at h
  rcases h with h | h
  · simp [isIdentChar, Char.isAlphanum, pyIsAlpha] at *
    tauto
  · subst h
    decide

theorem digit_numChar {c : Char} (h : pyIsDigit c = true) : isNumChar c = true := by
  simp [isNumChar, h]

/-- Every element of `dropWhile` comes from the original list. -/
theorem mem_of_mem_dropWhile {p : Char → Bool} :
    ∀ {l : List Char} {c : Char}, c ∈ l.dropWhile p → c ∈ l := by
  intro l
  induction l with
  | nil => intro c h; simp [List.dropWhile] at h
  | cons d ds ih =>
    intro c h
    rw [List.dropWhile_cons] at h
    by_cases hd : p d = true
    · simp only [hd, if_true] at h
      exact List.mem_cons_of_mem _ (ih h)
    · simp only [hd] at h
      simpa using h

/-- `takeWhile` of a list all of whose elements satisfy `p` is the list. -/
theorem takeWhile_all {p : Char → Bool} :
    ∀ {l : List Char}, (∀ c ∈ l, p c = true) → l.takeWhile p = l := by
  intro l
  induction l with
  | nil => intro _; rfl
  | cons d ds ih =>
    intro h
    rw [List.takeWhile_cons, h d (List.mem_cons_self d ds)]
    simp [ih (fun c hc => h c (List.mem_cons_of_mem d hc))]

/-- `dropWhile` of a list all of whose elements satisfy `p` is empty. -/
theorem dropWhile_all {p : Char → Bool} :
    ∀ {l : List Char}, (∀ c ∈ l, p c = true) → l.dropWhile p = [] := by
  intro l
  induction l with
  | nil => intro _; rfl
  | cons d ds ih =>
    intro h
    rw [List.dropWhile_cons, h d (List.mem_cons_self d ds)]
    simp [ih (fun c hc => h c (List.mem_cons_of_mem d hc))]

/-- `takeWhile` over an append whose left part satisfies `p` and whose right
part starts with a failing element. -/
theorem takeWhile_append_boundary {p : Char → Bool} {w rest : List Char}
    (hw : ∀ c ∈ w, p c = true) (hr : ∀ d, rest.head? = some d → p d = false) :
    (w ++ rest).takeWhile p = w := by
  rw [List.takeWhile_append_of_pos hw]
  cases rest with
  | nil => simp
  | cons d ds =>
    rw [List.takeWhile_cons, hr d rfl]
    simp

/-- `dropWhile` over an append whose left part satisfies `p` and whose right
part starts with a failing element. -/
theorem dropWhile_append_boundary {p : Char → Bool} {w rest : List Char}
    (hw : ∀ c ∈ w, p c = true) (hr : ∀ d, rest.head? = some d → p d = false) :
    (w ++ rest).dropWhile p = rest := by
  rw [List.dropWhile_append_of_pos hw]
  cases rest with
  | nil => rfl
  | cons d ds =>
    rw [List.dropWhile_cons, hr d rfl]
    simp



theorem scanStep_cont_length {ln : ℕ} {c : Char} {cs : List Char} {col : ℕ}
    {ts : List Token} {es : List CompilerError} {rest : List Char} {col2 : ℕ}
    (h : scanStep ln c cs col = .cont ts es rest col2) :
    rest.length ≤ cs.length := by
  unfold scanStep at h
  split_ifs at h with hsp hdig hq hal
  · cases h
    exact Nat.le_refl _
  · dsimp only [] at h
    split at h
    · cases h
    · cases h
      rw [List.dropWhile_cons, digit_numChar hdig]
      simp only [if_true]
      exact length_dropWhile_le' isNumChar cs
  · dsimp only [] at h
    split at h
    case _ d rest2 heq =>
      cases h
      have hx : (cs.dropWhile (fun d => d ≠ quoteC)).length ≤ cs.length := by
        simpa using length_dropWhile_le' (fun d => decide ¬(d = quoteC)) cs
      rw [heq] at hx
      simp only [List.length_cons] at hx
      omega
    case _ heq => cases h
  · dsimp only [] at h
    cases h
    rw [List.dropWhile_cons, alphaUnd_ident hal]
    simp only [if_true]
    exact length_dropWhile_le' isIdentChar cs
  · rcases cs with _ | ⟨c2, rest2⟩ <;> dsimp only [] at h
    · split at h <;> cases h <;> exact Nat.le_refl _
    · split at h
      · cases h
        simp
      · split at h <;> cases h <;> exact Nat.le_refl _

/-- The scanner's fuel is irrelevant as long as it exceeds the number of
characters left: every loop iteration consumes at least one character. -/
theorem scanLineF_fuel_congr : ∀ (f1 : ℕ) {f2 ln : ℕ} {cs : List Char} {col : ℕ},
    cs.length < f1 → cs.length < f2 →
    scanLineF f1 ln cs col = scanLineF f2 ln cs col := by
  intro f1
  induction f1 with
  | zero =>
    intro f2 ln cs col h1 _
    exact absurd h1 (Nat.not_lt_zero _)
  | succ n ih =>
    intro f2 ln cs col h1 h2
    cases f2 with
    | zero => exact absurd h2 (Nat.not_lt_zero _)
    | succ m =>
      cases cs with
      | nil => rfl
      | cons c cs =>
        have hlt : cs.length < n := Nat.lt_of_succ_lt_succ (by simpa using h1)
        have hlt2 : cs.length < m := Nat.lt_of_succ_lt_succ (by simpa using h2)
        show scanLineF (n + 1) ln (c :: cs) col = scanLineF (m + 1) ln (c :: cs) col
        rw [scanLineF, scanLineF]
        cases hs : scanStep ln c cs col with
        | raise e => rfl
        | stop ts es => rfl
        | cont ts es rest col2 =>
          have hr := scanStep_cont_length hs
          dsimp only []
          rw [ih (Nat.lt_of_le_of_lt hr hlt) (Nat.lt_of_le_of_lt hr hlt2)]

/-- Unfolding `scanLineAt` one iteration. -/
theorem scanLineAt_cons (ln : ℕ) (c : Char) (cs : List Char) (col : ℕ) :
    scanLineAt ln (c :: cs) col =
      match scanStep ln c cs col with
      | .raise e => .error e
      | .stop ts es => .ok (ts, es)
      | .cont ts es rest col2 =>
        match scanLineAt ln rest col2 with
        | .error e => .error e
        | .ok (ts2, es2) => .ok (ts ++ ts2, es ++ es2) := by
  show scanLineF ((c :: cs).length + 1) ln (c :: cs) col = _
  rw [show (c :: cs).length + 1 = cs.length + 1 + 1 by simp, scanLineF]
  cases hs : scanStep ln c cs col with
  | raise e => rfl
  | stop ts es => rfl
  | cont ts es rest col2 =>
    have hr := scanStep_cont_length hs
    dsimp only []
    rw [scanLineF_fuel_congr (cs.length + 1) (Nat.lt_succ_of_le hr) (Nat.lt_succ_of_le (Nat.le_refl _))]
    rfl

/-- The binary-operator dispatch table of `process_token` (source lines
186-215): for a token that is routed to `execute_bin_op`, the `op_name` and
the `func` lambda the source passes (`func(a, b)` computes `b OP a`, `a`
being the popped top of stack). -/
def binOpOfToken (tok : Token) : Option (String × (Value → Value → Except PyError Value)) :=
  if tok.type = "OP_ADD" then some ("+", fun a b => pyAdd b a)
  else if tok.type = "OP_SUB" then some ("-", fun a b => pySub b a)
  else if tok.type = "OP_MUL" then some ("*", fun a b => pyMul b a)
  else if tok.type = "OP_DIV" then some ("/", fun a b => pyDiv b a)
  else if tok.type = "OP_EQ" then some ("==", fun a b => .ok (.bool (pyEqV b a)))
  else if tok.type = "OP_NEQ" then some ("!=", fun a b => .ok (.bool (!pyEqV b a)))
  else if tok.type = "OP_LT" then some ("<", fun a b => (pyLtV b a).map Value.bool)
  else if tok.type = "OP_GT" then some (">", fun a b => (pyLtV a b).map Value.bool)
  else if tok.type = "OP_LTE" then some ("<=", fun a b => (pyLeV b a).map Value.bool)
  else if tok.type = "OP_GTE" then some (">=", fun a b => (pyLeV a b).map Value.bool)
  else if tok.type = "KEYWORD" then
    match tok.value with
    | .str s0 =>
      if pyUpper s0 = "AND" then some ("AND", fun a b => .ok (.bool (pyBool b && pyBool a)))
      else if pyUpper s0 = "OR" then some ("OR", fun a b => .ok (.bool (pyBool b || pyBool a)))
      else none
    | _ => none
  else none


/-- Any token the dispatch table routes to `execute_bin_op` is processed by
exactly that call. -/
theorem process_token_binOp {tok : Token} {op : String}
    {f : Value → Value → Except PyError Value}
    (h : binOpOfToken tok = some (op, f)) (st : EvalState) :
    process_token tok st = execute_bin_op op f st := by
  unfold binOpOfToken at h
  by_cases h1 : tok.type = "OP_ADD"
  · rw [if_pos h1] at h
    cases h
    unfold process_token
    simp only [h1, String.reduceEq, reduceIte]
  rw [if_neg h1] at h
  by_cases h2 : tok.type = "OP_SUB"
  · rw [if_pos h2] at h
    cases h
    unfold process_token
    simp only [h2, String.reduceEq, reduceIte]
  rw [if_neg h2] at h
  by_cases h3 : tok.type = "OP_MUL"
  · rw [if_pos h3] at h
    cases h
    unfold process_token
    simp only [h3, String.reduceEq, reduceIte]
  rw [if_neg h3] at h
  by_cases h4 : tok.type = "OP_DIV"
  · rw [if_pos h4] at h
    cases h
    unfold process_token
    simp only [h4, String.reduceEq, reduceIte]
  rw [if_neg h4] at h
  by_cases h5 : tok.type = "OP_EQ"
  · rw [if_pos h5] at h
    cases h
    unfold process_token
    simp only [h5, String.reduceEq, reduceIte]
  rw [if_neg h5] at h
  by_cases h6 : tok.type = "OP_NEQ"
  · rw [if_pos h6] at h
    cases h
    unfold process_token
    simp only [h6, String.reduceEq, reduceIte]
  rw [if_neg h6] at h
  by_cases h7 : tok.type = "OP_LT"
  · rw [if_pos h7] at h
    cases h
    unfold process_token
    simp only [h7, String.reduceEq, reduceIte]
  rw [if_neg h7] at h
  by_cases h8 : tok.type = "OP_GT"
  · rw [if_pos h8] at h
    cases h
    unfold process_token
    simp only [h8, String.reduceEq, reduceIte]
  rw [if_neg h8] at h
  by_cases h9 : tok.type = "OP_LTE"
  · rw [if_pos h9] at h
    cases h
    unfold process_token
    simp only [h9, String.reduceEq, reduceIte]
  rw [if_neg h9] at h
  by_cases h10 : tok.type = "OP_GTE"
  · rw [if_pos h10] at h
    cases h
    unfold process_token
    simp only [h10, String.reduceEq, reduceIte]
  rw [if_neg h10] at h
  by_cases h11 : tok.type = "KEYWORD"
  · rw [if_pos h11] at h
    rcases hv : tok.value with q | s0 | b <;> rw [hv] at h <;> dsimp only [] at h
    · cases h
    · by_cases ha : pyUpper s0 = "AND"
      · rw [if_pos ha] at h
        cases h
        unfold process_token
        simp only [h11, String.reduceEq, reduceIte, hv, ha]
      rw [if_neg ha] at h
      by_cases ho : pyUpper s0 = "OR"
      · rw [if_pos ho] at h
        cases h
        unfold process_token
        simp only [h11, String.reduceEq, reduceIte, hv, ha, ho]
      · rw [if_neg ho] at h
        cases h
    · cases h
  · rw [if_neg h11] at h
    cases h

/-- With fewer than two stack values, `execute_bin_op` leaves the stack
untouched and appends exactly the underflow diagnostic. -/
theorem execute_bin_op_underflow {op : String} {f : Value → Value → Except PyError Value}
    {st : EvalState} (h : st.stack.length < 2) :
    execute_bin_op op f st =
      .ok ({ st with errors := st.errors ++
              [⟨st.current_line, "EJECUCIÓN", "Stack underflow: " ++ op ++ " requiere 2 operandos"⟩] },
           .binOpUnderflow op) := by
  rcases st with ⟨stack, errors, cur⟩
  rcases stack with _ | ⟨a, _ | ⟨b, rest⟩⟩
  · rfl
  · rfl
  · exact absurd h (by simp)

/-- Unfolding the machine loop at a successfully processed token. -/
theorem execMachineAux_cons_ok {tok : Token} {st st1 : EvalState} {act : ExecAction}
    (h : process_token tok st = .ok (st1, act)) (idx : ℕ) (ts : List Token) :
    execMachineAux st idx (tok :: ts) =
      (execMachineAux st1 (idx + 1) ts).map
        (fun p => (p.1, ⟨idx + 1, tok, act, st1.stack⟩ :: p.2)) := by
  rw [execMachineAux, h]
  dsimp only []
  cases hr : execMachineAux st1 (idx + 1) ts with
  | error e => rfl
  | ok p =>
    rcases p with ⟨stf, log⟩
    rfl

/-- A successful run of the machine loop logs exactly the processed tokens,
in order, with 1-based consecutive step numbers. -/
theorem execMachineAux_ok_log : ∀ (toks : List Token) (st : EvalState) (idx : ℕ)
    {stf : EvalState} {log : List ExecRecord},
    execMachineAux st idx toks = .ok (stf, log) →
    log.map ExecRecord.token = toks ∧ log.map ExecRecord.step = List.range' (idx + 1) toks.length := by
  intro toks
  induction toks with
  | nil =>
    intro st idx stf log h
    cases h
    exact ⟨rfl, rfl⟩
  | cons tok rest ih =>
    intro st idx stf log h
    unfold execMachineAux at h
    cases hp : process_token tok st with
    | error e =>
      rw [hp] at h
      cases h
    | ok p =>
      rcases p with ⟨st1, act⟩
      rw [hp] at h
      dsimp only [] at h
      cases hr : execMachineAux st1 (idx + 1) rest with
      | error e =>
        rw [hr] at h
        cases h
      | ok q =>
        rcases q with ⟨stf2, log2⟩
        rw [hr] at h
        dsimp only [] at h
        cases h
        obtain ⟨ht, hs⟩ := ih st1 (idx + 1) hr
        refine ⟨?_, ?_⟩
        · simp [ht]
        · simp only [List.map_cons, hs, List.length_cons]
          rfl

/-- C1 (counterexample): evaluating the tokens of `"1 0 /"` does NOT
complete the run: the division lambda raises `ZeroDivisionError`, which
aborts `execute_stack_machine`, so no execution record is produced for the
`OP_DIV` token nor for any token, contrary to the claim. -/
theorem claim_C1_counterexample :
    sentryRun "1 0 /" = .error .zeroDivisionError
    ∧ ∀ (r : RunResult), sentryRun "1 0 /" ≠ .ok r := by
  refine ⟨rfl, fun r h => ?_⟩
  exact Except.noConfusion ((show sentryRun "1 0 /" = .error .zeroDivisionError from rfl).symm.trans h)

/-- C1 (amended): whenever `execute_stack_machine` returns normally (no
host exception was raised by any token), it has processed all tokens and
produced exactly one execution record per token, in order, with 1-based
consecutive step numbers; and a binary operator meeting a stack underflow
never raises — its `process_token` call returns normally, so evaluation
continues.  (Division by zero, however, raises and aborts the run, as the
counterexample records.) -/
theorem claim_C1_amended :
    (∀ (st : EvalState) (toks : List Token) (stf : EvalState) (log : List ExecRecord),
        execute_stack_machine st toks = .ok (stf, log) →
        log.map ExecRecord.token = toks ∧ log.map ExecRecord.step = List.range' 1 toks.length)
    ∧ (∀ (st : EvalState) (tok : Token) (op : String)
          (f : Value → Value → Except PyError Value),
        binOpOfToken tok = some (op, f) → st.stack.length < 2 →
        ∃ st2 act, process_token tok st = .ok (st2, act)) := by
  constructor
  · intro st toks stf log h
    exact execMachineAux_ok_log toks { st with stack := [] } 0 h
  · intro st tok op f hdisp hlen
    refine ⟨{ st with errors := st.errors ++
        [⟨st.current_line, "EJECUCIÓN", "Stack underflow: " ++ op ++ " requiere 2 operandos"⟩] },
      .binOpUnderflow op, ?_⟩
    rw [process_token_binOp hdisp]
    exact execute_bin_op_underflow hlen

/-- C1 (witness): the amended theorem applied to the one-token run of
`"1"` and to an `OP_ADD` token meeting an empty stack. -/
theorem claim_C1_witness :
    (([⟨1, ⟨"NUMBER", .num 1, 1, 0⟩, .pushNumber (.num 1), [.num 1]⟩]
        : List ExecRecord).map ExecRecord.token = [⟨"NUMBER", .num 1, 1, 0⟩]
    ∧ ∃ st2 act, process_token ⟨"OP_ADD", .str "+", 1, 0⟩ ⟨[], [], 1⟩ = .ok (st2, act)) := by
  constructor
  · exact (claim_C1_amended.1 ⟨[], [], 1⟩
      [⟨"NUMBER", .num 1, 1, 0⟩]
      ⟨[.num 1], [], 1⟩
      [⟨1, ⟨"NUMBER", .num 1, 1, 0⟩, .pushNumber (.num 1), [.num 1]⟩]
      (by rfl)).1
  · exact claim_C1_amended.2 ⟨[], [], 1⟩ ⟨"OP_ADD", .str "+", 1, 0⟩ "+" _ rfl (by decide)

/-- C2 (code bug): lexing `"1.2.3"` raises an unhandled `ValueError` from
`float("1.2.3")` instead of completing with a LEXICAL diagnostic as the
specification requires. -/
theorem claim_C2_code_bug : lexical_analysis "1.2.3" = .error .valueError := rfl

/-- C3 (counterexample): `OP_DIV` evaluated on the stack `[0, 5]` (top
first) has at least two values, yet it does not push the result `b OP a`:
the division raises `ZeroDivisionError` and the run aborts. -/
theorem claim_C3_counterexample :
    execute_stack_machine ⟨[], [], 1⟩
        [⟨"NUMBER", .num 5, 1, 0⟩, ⟨"NUMBER", .num 0, 1, 2⟩, ⟨"OP_DIV", .str "/", 1, 4⟩]
      = .error .zeroDivisionError
    ∧ ∀ (res : EvalState × List ExecRecord),
        execute_stack_machine ⟨[], [], 1⟩
            [⟨"NUMBER", .num 5, 1, 0⟩, ⟨"NUMBER", .num 0, 1, 2⟩, ⟨"OP_DIV", .str "/", 1, 4⟩]
          ≠ .ok res := by
  refine ⟨rfl, fun res h => ?_⟩
  exact Except.noConfusion ((show execute_stack_machine ⟨[], [], 1⟩
      [⟨"NUMBER", .num 5, 1, 0⟩, ⟨"NUMBER", .num 0, 1, 2⟩, ⟨"OP_DIV", .str "/", 1, 4⟩]
    = .error .zeroDivisionError from rfl).symm.trans h)

/-- C3 (amended): a binary arithmetic, comparison, AND or OR token
evaluated on a stack with at least two values pops `a` (the top), pops `b`
(the next), and — provided computing `b OP a` raises no host exception —
pushes that single result, leaving the rest of the stack and the
diagnostics unchanged; consequently `"10 5 - 2 *"` evaluates to the final
stack `[10.0]`. -/
theorem claim_C3_amended :
    (∀ (st : EvalState) (tok : Token) (op : String)
        (f : Value → Value → Except PyError Value) (a b : Value) (rest : List Value) (r : Value),
        binOpOfToken tok = some (op, f) → st.stack = a :: b :: rest → f a b = .ok r →
        process_token tok st = .ok ({ st with stack := r :: rest }, .binOpOk op a b r))
    ∧ (sentryRun "10 5 - 2 *").map RunResult.stack = .ok [Value.num 10] := by
  constructor
  · intro st tok op f a b rest r hdisp hstack hf
    rw [process_token_binOp hdisp]
    unfold execute_bin_op
    rw [hstack]
    dsimp only []
    rw [hf]
  · have e1 : (10 : ℚ) - 5 = 5 := by norm_num
    have e2 : (5 : ℚ) * 2 = 10 := by norm_num
    have h3 : process_token ⟨"OP_SUB", .str "-", 1, 5⟩ ⟨[.num 5, .num 10], [], 1⟩
        = .ok (⟨[.num ((10 : ℚ) - 5)], [], 1⟩,
               .binOpOk "-" (.num 5) (.num 10) (.num ((10 : ℚ) - 5))) := rfl
    rw [e1] at h3
    have h5 : process_token ⟨"OP_MUL", .str "*", 1, 9⟩ ⟨[.num 2, .num 5], [], 1⟩
        = .ok (⟨[.num ((5 : ℚ) * 2)], [], 1⟩,
               .binOpOk "*" (.num 2) (.num 5) (.num ((5 : ℚ) * 2))) := rfl
    rw [e2] at h5
    have hrun : execMachineAux ⟨[], [], 1⟩ 0
        [⟨"NUMBER", .num 10, 1, 0⟩, ⟨"NUMBER", .num 5, 1, 3⟩, ⟨"OP_SUB", .str "-", 1, 5⟩,
         ⟨"NUMBER", .num 2, 1, 7⟩, ⟨"OP_MUL", .str "*", 1, 9⟩]
        = .ok (⟨[.num 10], [], 1⟩,
            [⟨1, ⟨"NUMBER", .num 10, 1, 0⟩, .pushNumber (.num 10), [.num 10]⟩,
             ⟨2, ⟨"NUMBER", .num 5, 1, 3⟩, .pushNumber (.num 5), [.num 5, .num 10]⟩,
             ⟨3, ⟨"OP_SUB", .str "-", 1, 5⟩, .binOpOk "-" (.num 5) (.num 10) (.num 5), [.num 5]⟩,
             ⟨4, ⟨"NUMBER", .num 2, 1, 7⟩, .pushNumber (.num 2), [.num 2, .num 5]⟩,
             ⟨5, ⟨"OP_MUL", .str "*", 1, 9⟩, .binOpOk "*" (.num 2) (.num 5) (.num 10), [.num 10]⟩]) := by
      rw [execMachineAux_cons_ok (show process_token ⟨"NUMBER", .num 10, 1, 0⟩ ⟨[], [], 1⟩
            = .ok (⟨[.num 10], [], 1⟩, .pushNumber (.num 10)) from rfl)]
      rw [execMachineAux_cons_ok (show process_token ⟨"NUMBER", .num 5, 1, 3⟩ ⟨[.num 10], [], 1⟩
            = .ok (⟨[.num 5, .num 10], [], 1⟩, .pushNumber (.num 5)) from rfl)]
      rw [execMachineAux_cons_ok h3]
      rw [execMachineAux_cons_ok (show process_token ⟨"NUMBER", .num 2, 1, 7⟩ ⟨[.num 5], [], 1⟩
            = .ok (⟨[.num 2, .num 5], [], 1⟩, .pushNumber (.num 2)) from rfl)]
      rw [execMachineAux_cons_ok h5]
      rfl
    have hfull : sentryRun "10 5 - 2 *"
        = .ok ⟨[⟨"NUMBER", .num 10, 1, 0⟩, ⟨"NUMBER", .num 5, 1, 3⟩, ⟨"OP_SUB", .str "-", 1, 5⟩,
                ⟨"NUMBER", .num 2, 1, 7⟩, ⟨"OP_MUL", .str "*", 1, 9⟩],
               [⟨1, ⟨"NUMBER", .num 10, 1, 0⟩, .pushNumber (.num 10), [.num 10]⟩,
                ⟨2, ⟨"NUMBER", .num 5, 1, 3⟩, .pushNumber (.num 5), [.num 5, .num 10]⟩,
                ⟨3, ⟨"OP_SUB", .str "-", 1, 5⟩, .binOpOk "-" (.num 5) (.num 10) (.num 5), [.num 5]⟩,
                ⟨4, ⟨"NUMBER", .num 2, 1, 7⟩, .pushNumber (.num 2), [.num 2, .num 5]⟩,
                ⟨5, ⟨"OP_MUL", .str "*", 1, 9⟩, .binOpOk "*" (.num 2) (.num 5) (.num 10), [.num 10]⟩],
               [.num 10], []⟩ := by
      unfold sentryRun
      rw [show lexical_analysis "10 5 - 2 *"
          = .ok ([⟨"NUMBER", .num 10, 1, 0⟩, ⟨"NUMBER", .num 5, 1, 3⟩, ⟨"OP_SUB", .str "-", 1, 5⟩,
                  ⟨"NUMBER", .num 2, 1, 7⟩, ⟨"OP_MUL", .str "*", 1, 9⟩], [], 1) from rfl]
      dsimp only []
      rw [show execute_stack_machine ⟨[], [], 1⟩
            [⟨"NUMBER", .num 10, 1, 0⟩, ⟨"NUMBER", .num 5, 1, 3⟩, ⟨"OP_SUB", .str "-", 1, 5⟩,
             ⟨"NUMBER", .num 2, 1, 7⟩, ⟨"OP_MUL", .str "*", 1, 9⟩]
          = execMachineAux ⟨[], [], 1⟩ 0
            [⟨"NUMBER", .num 10, 1, 0⟩, ⟨"NUMBER", .num 5, 1, 3⟩, ⟨"OP_SUB", .str "-", 1, 5⟩,
             ⟨"NUMBER", .num 2, 1, 7⟩, ⟨"OP_MUL", .str "*", 1, 9⟩] from rfl]
      rw [hrun]
    rw [hfull]
    rfl

/-- C3 (witness): the amended theorem applied at an `OP_SUB` token on the
stack `[num 5, num 10]`. -/
theorem claim_C3_witness :
    process_token ⟨"OP_SUB", .str "-", 1, 5⟩ ⟨[.num 5, .num 10], [], 1⟩
      = .ok ({ (⟨[.num 5, .num 10], [], 1⟩ : EvalState) with stack := .num ((10 : ℚ) - 5) :: [] },
             .binOpOk "-" (.num 5) (.num 10) (.num ((10 : ℚ) - 5))) :=
  claim_C3_amended.1 ⟨[.num 5, .num 10], [], 1⟩ ⟨"OP_SUB", .str "-", 1, 5⟩ "-"
    (fun a b => pySub b a) (.num 5) (.num 10) [] (.num ((10 : ℚ) - 5)) rfl rfl rfl

/-- C4 (confirmed): a binary arithmetic, comparison, AND or OR token
evaluated with fewer than two stack values leaves the stack untouched,
appends exactly one RUNTIME ("EJECUCIÓN") stack-underflow diagnostic,
records the failed action, and the machine loop continues with the
remaining tokens. -/
theorem claim_C4 (st : EvalState) (tok : Token) (op : String)
    (f : Value → Value → Except PyError Value)
    (hdisp : binOpOfToken tok = some (op, f)) (hlen : st.stack.length < 2) :
    ∃ st2 : EvalState,
      process_token tok st = .ok (st2, .binOpUnderflow op)
      ∧ st2.stack = st.stack
      ∧ st2.errors = st.errors ++
          [⟨st.current_line, "EJECUCIÓN", "Stack underflow: " ++ op ++ " requiere 2 operandos"⟩]
      ∧ st2.current_line = st.current_line
      ∧ ∀ (ts : List Token) (idx : ℕ),
          execMachineAux st idx (tok :: ts) =
            (execMachineAux st2 (idx + 1) ts).map
              (fun p => (p.1, ⟨idx + 1, tok, .binOpUnderflow op, st.stack⟩ :: p.2)) := by
  have hp : process_token tok st =
      .ok ({ st with errors := st.errors ++
              [⟨st.current_line, "EJECUCIÓN", "Stack underflow: " ++ op ++ " requiere 2 operandos"⟩] },
           .binOpUnderflow op) := by
    rw [process_token_binOp hdisp]
    exact execute_bin_op_underflow hlen
  exact ⟨_, hp, rfl, rfl, rfl, fun ts idx => execMachineAux_cons_ok hp idx ts⟩

/-- C4 (witness): the theorem applied to an `OP_MUL` token meeting a
one-element stack. -/
theorem claim_C4_witness :
    ∃ st2 : EvalState,
      process_token ⟨"OP_MUL", .str "*", 1, 2⟩ ⟨[.num 3], [], 1⟩ = .ok (st2, .binOpUnderflow "*")
      ∧ st2.stack = (⟨[.num 3], [], 1⟩ : EvalState).stack
      ∧ st2.errors = (⟨[.num 3], [], 1⟩ : EvalState).errors ++
          [⟨(⟨[.num 3], [], 1⟩ : EvalState).current_line, "EJECUCIÓN",
            "Stack underflow: " ++ "*" ++ " requiere 2 operandos"⟩]
      ∧ st2.current_line = (⟨[.num 3], [], 1⟩ : EvalState).current_line
      ∧ ∀ (ts : List Token) (idx : ℕ),
          execMachineAux ⟨[.num 3], [], 1⟩ idx (⟨"OP_MUL", .str "*", 1, 2⟩ :: ts) =
            (execMachineAux st2 (idx + 1) ts).map
              (fun p => (p.1, ⟨idx + 1, ⟨"OP_MUL", .str "*", 1, 2⟩, .binOpUnderflow "*",
                (⟨[.num 3], [], 1⟩ : EvalState).stack⟩ :: p.2)) :=
  claim_C4 ⟨[.num 3], [], 1⟩ ⟨"OP_MUL", .str "*", 1, 2⟩ "*" (fun a b => pyMul b a) rfl (by decide)

/-- C7 (code bug): on the two-line input `"5 +\\n7"` the `OP_ADD` token
lies on line 1, but its stack-underflow diagnostic is stamped with line 2 —
`execute_bin_op` reads the stale `self.current_line` left by the lexer
instead of `token.line` (which the NOT branch uses). -/
theorem claim_C7_code_bug :
    sentryRun "5 +\n7" = .ok
      { tokens := [⟨"NUMBER", .num 5, 1, 0⟩, ⟨"OP_ADD", .str "+", 1, 2⟩, ⟨"NUMBER", .num 7, 2, 0⟩],
        log := [⟨1, ⟨"NUMBER", .num 5, 1, 0⟩, .pushNumber (.num 5), [.num 5]⟩,
                ⟨2, ⟨"OP_ADD", .str "+", 1, 2⟩, .binOpUnderflow "+", [.num 5]⟩,
                ⟨3, ⟨"NUMBER", .num 7, 2, 0⟩, .pushNumber (.num 7), [.num 7, .num 5]⟩],
        stack := [.num 7, .num 5],
        errors := [⟨2, "EJECUCIÓN", "Stack underflow: + requiere 2 operandos"⟩] }
    ∧ (2 : ℕ) ≠ 1 := ⟨rfl, by decide⟩

/-- C8 (confirmed): logical operators follow the truthiness rule (zero,
empty text and `False` are falsy, everything else truthy): NOT pops one
value and pushes its boolean negation, AND and OR pop two values and push
the boolean combination of their coercions; consequently `"1 0 AND"`
evaluates to the final stack `[False]`. -/
theorem claim_C8 :
    (pyBool (Value.num 0) = false ∧ pyBool (Value.str "") = false
      ∧ pyBool (Value.bool false) = false
      ∧ (∀ q : ℚ, q ≠ 0 → pyBool (Value.num q) = true)
      ∧ (∀ s : String, s ≠ "" → pyBool (Value.str s) = true)
      ∧ pyBool (Value.bool true) = true)
    ∧ (∀ (st : EvalState) (tok : Token) (s0 : String) (a : Value) (rest : List Value),
        tok.type = "KEYWORD" → tok.value = .str s0 → pyUpper s0 = "NOT" →
        st.stack = a :: rest →
        process_token tok st =
          .ok ({ st with stack := .bool (!pyBool a) :: rest }, .notOk a (!pyBool a)))
    ∧ (∀ (st : EvalState) (tok : Token) (s0 : String) (a b : Value) (rest : List Value),
        tok.type = "KEYWORD" → tok.value = .str s0 → pyUpper s0 = "AND" →
        st.stack = a :: b :: rest →
        process_token tok st =
          .ok ({ st with stack := .bool (pyBool b && pyBool a) :: rest },
               .binOpOk "AND" a b (.bool (pyBool b && pyBool a))))
    ∧ (∀ (st : EvalState) (tok : Token) (s0 : String) (a b : Value) (rest : List Value),
        tok.type = "KEYWORD" → tok.value = .str s0 → pyUpper s0 = "OR" →
        st.stack = a :: b :: rest →
        process_token tok st =
          .ok ({ st with stack := .bool (pyBool b || pyBool a) :: rest },
               .binOpOk "OR" a b (.bool (pyBool b || pyBool a))))
    ∧ (sentryRun "1 0 AND").map RunResult.stack = .ok [Value.bool false] := by
  refine ⟨⟨rfl, rfl, rfl, ?_, ?_, rfl⟩, ?_, ?_, ?_, rfl⟩
  · intro q hq
    simp [pyBool, hq]
  · intro s hs
    simp [pyBool, hs]
  · intro st tok s0 a rest htype hval hup hstack
    unfold process_token
    simp only [htype, String.reduceEq, reduceIte, hval, hup]
    rw [hstack]
  · intro st tok s0 a b rest htype hval hup hstack
    have hdisp : binOpOfToken tok = some ("AND", fun a b => .ok (.bool (pyBool b && pyBool a))) := by
      unfold binOpOfToken
      simp only [htype, String.reduceEq, reduceIte, hval, hup]
    rw [process_token_binOp hdisp]
    unfold execute_bin_op
    rw [hstack]
  · intro st tok s0 a b rest htype hval hup hstack
    have hdisp : binOpOfToken tok = some ("OR", fun a b => .ok (.bool (pyBool b || pyBool a))) := by
      unfold binOpOfToken
      simp only [htype, String.reduceEq, reduceIte, hval, hup]
    rw [process_token_binOp hdisp]
    unfold execute_bin_op
    rw [hstack]

/-- C8 (witness): the truthiness facts and operator behaviors at concrete
inputs: `NOT` on `[num 0]`, `AND` on `["", true]` (top first). -/
theorem claim_C8_witness :
    pyBool (Value.num 2) = true
    ∧ pyBool (Value.str "x") = true
    ∧ process_token ⟨"KEYWORD", .str "NOT", 1, 0⟩ ⟨[.num 0], [], 1⟩ =
        .ok ({ (⟨[.num 0], [], 1⟩ : EvalState) with stack := .bool (!pyBool (.num 0)) :: [] },
             .notOk (.num 0) (!pyBool (.num 0)))
    ∧ process_token ⟨"KEYWORD", .str "AND", 1, 0⟩ ⟨[.str "", .bool true], [], 1⟩ =
        .ok ({ (⟨[.str "", .bool true], [], 1⟩ : EvalState) with
                stack := .bool (pyBool (.bool true) && pyBool (.str "")) :: [] },
             .binOpOk "AND" (.str "") (.bool true)
               (.bool (pyBool (.bool true) && pyBool (.str "")))) := by
  refine ⟨?_, ?_, ?_, ?_⟩
  · exact claim_C8.1.2.2.2.1 2 (by norm_num)
  · exact claim_C8.1.2.2.2.2.1 "x" (by decide)
  · exact claim_C8.2.1 ⟨[.num 0], [], 1⟩ ⟨"KEYWORD", .str "NOT", 1, 0⟩ "NOT" (.num 0) [] rfl rfl rfl rfl
  · exact claim_C8.2.2.1 ⟨[.str "", .bool true], [], 1⟩ ⟨"KEYWORD", .str "AND", 1, 0⟩ "AND"
      (.str "") (.bool true) [] rfl rfl rfl rfl

/-- Unfolding one scanner iteration that continues. -/
theorem scanLineAt_cons_cont {ln : ℕ} {c : Char} {cs : List Char} {col : ℕ}
    {ts : List Token} {es : List CompilerError} {rest : List Char} {col2 : ℕ}
    (hs : scanStep ln c cs col = .cont ts es rest col2) :
    scanLineAt ln (c :: cs) col =
      (scanLineAt ln rest col2).map (fun r => (ts ++ r.1, es ++ r.2)) := by
  rw [scanLineAt_cons, hs]
  dsimp only []
  cases hr : scanLineAt ln rest col2 with
  | error e => rfl
  | ok r =>
    rcases r with ⟨ts2, es2⟩
    rfl

/-- Unfolding one scanner iteration that exits the line loop. -/
theorem scanLineAt_cons_stop {ln : ℕ} {c : Char} {cs : List Char} {col : ℕ}
    {ts : List Token} {es : List CompilerError}
    (hs : scanStep ln c cs col = .stop ts es) :
    scanLineAt ln (c :: cs) col = .ok (ts, es) := by
  rw [scanLineAt_cons, hs]

/-- Inversion of the two-character operator lookup. -/
theorem twoCharOp_cases {c1 c2 : Char} {ty : String}
    (h : operators (String.mk [c1, c2]) = some ty) :
    (c1 = '=' ∧ c2 = '=' ∧ ty = "OP_EQ") ∨ (c1 = '!' ∧ c2 = '=' ∧ ty = "OP_NEQ")
    ∨ (c1 = '<' ∧ c2 = '=' ∧ ty = "OP_LTE") ∨ (c1 = '>' ∧ c2 = '=' ∧ ty = "OP_GTE") := by
  have hlen2 : ∀ (d : Char), String.mk [c1, c2] ≠ String.mk [d] := by
    intro d hh
    have hd := congrArg String.data hh
    simp at hd
  unfold operators at h
  by_cases h1 : String.mk [c1, c2] = "=="
  · rw [if_pos h1] at h
    cases h
    have hd := congrArg String.data h1
    rw [show "==".data = ['=', '='] from rfl] at hd
    simp only [List.cons.injEq, and_true] at hd
    exact Or.inl ⟨hd.1, hd.2, rfl⟩
  rw [if_neg h1] at h
  by_cases h2 : String.mk [c1, c2] = "!="
  · rw [if_pos h2] at h
    cases h
    have hd := congrArg String.data h2
    rw [show "!=".data = ['!', '='] from rfl] at hd
    simp only [List.cons.injEq, and_true] at hd
    exact Or.inr (Or.inl ⟨hd.1, hd.2, rfl⟩)
  rw [if_neg h2] at h
  by_cases h3 : String.mk [c1, c2] = "<="
  · rw [if_pos h3] at h
    cases h
    have hd := congrArg String.data h3
    rw [show "<=".data = ['<', '='] from rfl] at hd
    simp only [List.cons.injEq, and_true] at hd
    exact Or.inr (Or.inr (Or.inl ⟨hd.1, hd.2, rfl⟩))
  rw [if_neg h3] at h
  by_cases h4 : String.mk [c1, c2] = ">="
  · rw [if_pos h4] at h
    cases h
    have hd := congrArg String.data h4
    rw [show ">=".data = ['>', '='] from rfl] at hd
    simp only [List.cons.injEq, and_true] at hd
    exact Or.inr (Or.inr (Or.inr ⟨hd.1, hd.2, rfl⟩))
  rw [if_neg h4] at h
  rw [if_neg (hlen2 '+'), if_neg (hlen2 '-'), if_neg (hlen2 '*'), if_neg (hlen2 '/'),
    if_neg (hlen2 '<'), if_neg (hlen2 '>')] at h
  cases h

/-- C6 (confirmed): whenever both characters of a two-character operator
are available at the scanner's position, the single two-character operator
token is emitted (consuming both characters) — never a one-character token
followed by an error; in particular `"<="` lexes to exactly one OP_LTE
token and no diagnostics. -/
theorem claim_C6 :
    (∀ (c1 c2 : Char) (ty : String) (rest : List Char) (ln col : ℕ),
        operators (String.mk [c1, c2]) = some ty →
        scanLineAt ln (c1 :: c2 :: rest) col =
          (scanLineAt ln rest (col + 2)).map
            (fun r => (⟨ty, .str (String.mk [c1, c2]), ln, col⟩ :: r.1, r.2)))
    ∧ lexical_analysis "<=" = .ok ([⟨"OP_LTE", .str "<=", 1, 0⟩], [], 1) := by
  constructor
  · intro c1 c2 ty rest ln col h
    have hstep : scanStep ln c1 (c2 :: rest) col =
        .cont [⟨ty, .str (String.mk [c1, c2]), ln, col⟩] [] rest (col + 2) := by
      rcases twoCharOp_cases h with ⟨e1, e2, e3⟩ | ⟨e1, e2, e3⟩ | ⟨e1, e2, e3⟩ | ⟨e1, e2, e3⟩ <;>
        subst e1 <;> subst e2 <;> subst e3 <;> rfl
    rw [scanLineAt_cons_cont hstep]
    rfl
  · rfl

/-- C6 (witness): the theorem applied to `'<'`, `'='` at the start of a
line; the scan of the remaining empty tail evaluates to no further
tokens. -/
theorem claim_C6_witness :
    scanLineAt 1 ['<', '='] 0 =
      (scanLineAt 1 [] (0 + 2)).map
        (fun r => (⟨"OP_LTE", .str (String.mk ['<', '=']), 1, 0⟩ :: r.1, r.2)) :=
  claim_C6.1 '<' '=' "OP_LTE" [] 1 0 rfl

/-- A maximal identifier word makes the scanner emit one KEYWORD or
IDENTIFIER token and continue after it. -/
theorem scanStep_ident_step {c : Char} {w rest : List Char} {ln col : ℕ}
    (h1 : (pyIsAlpha c || c = '_') = true)
    (hw : ∀ d ∈ c :: w, isIdentChar d = true)
    (hr : ∀ d, rest.head? = some d → isIdentChar d = false) :
    scanStep ln c (w ++ rest) col =
      .cont [if pyUpper (String.mk (c :: w)) ∈ keywords
             then (⟨"KEYWORD", .str (pyUpper (String.mk (c :: w))), ln, col⟩ : Token)
             else ⟨"IDENTIFIER", .str (String.mk (c :: w)), ln, col⟩]
        [] rest (col + (c :: w).length) := by
  unfold scanStep
  simp only [alphaUnd_not_space h1, alphaUnd_not_digit h1, Bool.false_eq_true, if_false,
    alphaUnd_not_quote h1, h1, if_true]
  rw [show (c :: (w ++ rest)) = (c :: w) ++ rest from rfl]
  rw [takeWhile_append_boundary hw hr, dropWhile_append_boundary hw hr]

/-- C9 (confirmed): a maximal scanned word starting with a letter or
underscore and made of letters, digits and underscores lexes to a KEYWORD
token carrying the uppercased name exactly when the uppercased word is in
the fixed keyword set (matching is case-insensitive), and to an IDENTIFIER
token preserving the original casing otherwise; `"Filter"` becomes KEYWORD
`"FILTER"` while `"nombre"` stays IDENTIFIER `"nombre"`. -/
theorem claim_C9 :
    (∀ (c : Char) (w rest : List Char) (ln col : ℕ),
        (pyIsAlpha c || c = '_') = true →
        (∀ d ∈ c :: w, isIdentChar d = true) →
        (∀ d, rest.head? = some d → isIdentChar d = false) →
        scanLineAt ln ((c :: w) ++ rest) col =
          (scanLineAt ln rest (col + (c :: w).length)).map
            (fun r =>
              ((if pyUpper (String.mk (c :: w)) ∈ keywords
                then (⟨"KEYWORD", .str (pyUpper (String.mk (c :: w))), ln, col⟩ : Token)
                else ⟨"IDENTIFIER", .str (String.mk (c :: w)), ln, col⟩) :: r.1, r.2)))
    ∧ lexical_analysis "Filter" = .ok ([⟨"KEYWORD", .str "FILTER", 1, 0⟩], [], 1)
    ∧ lexical_analysis "nombre" = .ok ([⟨"IDENTIFIER", .str "nombre", 1, 0⟩], [], 1) := by
  refine ⟨?_, rfl, rfl⟩
  intro c w rest ln col h1 hw hr
  rw [show ((c :: w) ++ rest : List Char) = c :: (w ++ rest) from rfl]
  rw [scanLineAt_cons_cont (scanStep_ident_step h1 hw hr)]
  rfl

/-- C9 (witness): the theorem applied to the word `"and"` (lowercase, a
keyword after uppercasing) followed by nothing. -/
theorem claim_C9_witness :
    scanLineAt 1 (['a', 'n', 'd'] ++ []) 0 =
      (scanLineAt 1 [] (0 + (['a', 'n', 'd'] : List Char).length)).map
        (fun r =>
          ((if pyUpper (String.mk ['a', 'n', 'd']) ∈ keywords
            then (⟨"KEYWORD", .str (pyUpper (String.mk ['a', 'n', 'd'])), 1, 0⟩ : Token)
            else ⟨"IDENTIFIER", .str (String.mk ['a', 'n', 'd']), 1, 0⟩) :: r.1, r.2)) :=
  claim_C9.1 'a' ['n', 'd'] [] 1 0 (by decide) (by decide)
    (fun d hd => Option.noConfusion hd)

/-- `float()` of a digits-and-periods text is nonnegative. -/
theorem pyFloat_nonneg {cs : List Char} {q : ℚ} (h : pyFloat cs = some q) : 0 ≤ q := by
  unfold pyFloat at h
  split at h
  · cases h
    exact Nat.cast_nonneg _
  · cases h
    refine add_nonneg (Nat.cast_nonneg _) (div_nonneg (Nat.cast_nonneg _) (Nat.cast_nonneg _))
  · cases h

/-- The operator table never yields the NUMBER token type. -/
theorem operators_ne_number {s ty : String} (h : operators s = some ty) : ty ≠ "NUMBER" := by
  unfold operators at h
  split_ifs at h <;> cases h <;> decide

/-- The tokens a scanner step emits (none when it raises). -/
def stepTokens : StepRes → List Token
  | .cont ts _ _ _ => ts
  | .stop ts _ => ts
  | .raise _ => []

/-- Every NUMBER token a scanner step emits carries a nonnegative numeric
value (numeric literals have no sign: the NUMBER branch is entered only on
a digit and collects only digits and periods). -/
theorem scanStep_number_nonneg (ln : ℕ) (c : Char) (cs : List Char) (col : ℕ) :
    ∀ t ∈ stepTokens (scanStep ln c cs col),
      t.type = "NUMBER" → ∃ q : ℚ, t.value = .num q ∧ 0 ≤ q := by
  unfold scanStep
  split_ifs with hsp hdig hq hal
  · intro t ht
    cases ht
  · dsimp only []
    rcases hpf : pyFloat ((c :: cs).takeWhile isNumChar) with _ | v <;> dsimp only [stepTokens]
    · intro t ht
      cases ht
    · intro t ht htype
      rcases List.mem_singleton.mp ht with rfl
      exact ⟨v, rfl, pyFloat_nonneg hpf⟩
  · dsimp only []
    rcases hdw : cs.dropWhile (fun d => d ≠ quoteC) with _ | ⟨d, rest2⟩ <;> dsimp only [stepTokens]
    · intro t ht
      cases ht
    · intro t ht htype
      rcases List.mem_singleton.mp ht with rfl
      simp at htype
  · dsimp only [stepTokens]
    intro t ht htype
    rcases List.mem_singleton.mp ht with rfl
    revert htype
    split <;> intro htype <;> simp at htype
  · rcases cs with _ | ⟨c2, rest2⟩ <;> dsimp only []
    · rcases hop : operators (String.mk [c]) with _ | ty <;> dsimp only [stepTokens]
      · intro t ht
        cases ht
      · intro t ht htype
        rcases List.mem_singleton.mp ht with rfl
        exact absurd htype (operators_ne_number hop)
    · rcases hop2 : operators (String.mk [c, c2]) with _ | ty <;> dsimp only [stepTokens]
      · rcases hop1 : operators (String.mk [c]) with _ | ty <;> dsimp only [stepTokens]
        · intro t ht
          cases ht
        · intro t ht htype
          rcases List.mem_singleton.mp ht with rfl
          exact absurd htype (operators_ne_number hop1)
      · intro t ht htype
        rcases List.mem_singleton.mp ht with rfl
        exact absurd htype (operators_ne_number hop2)

/-- Every NUMBER token the scanner loop produces carries a nonnegative
numeric value. -/
theorem scanLineF_number_nonneg : ∀ (fuel ln : ℕ) (cs : List Char) (col : ℕ)
    {ts : List Token} {es : List CompilerError},
    scanLineF fuel ln cs col = .ok (ts, es) →
    ∀ t ∈ ts, t.type = "NUMBER" → ∃ q : ℚ, t.value = .num q ∧ 0 ≤ q := by
  intro fuel
  induction fuel with
  | zero =>
    intro ln cs col ts es h
    cases h
    intro t ht
    cases ht
  | succ n ih =>
    intro ln cs col ts es h
    cases cs with
    | nil =>
      cases h
      intro t ht
      cases ht
    | cons c cs =>
      rw [scanLineF] at h
      cases hs : scanStep ln c cs col with
      | raise e =>
        rw [hs] at h
        cases h
      | stop ts1 es1 =>
        rw [hs] at h
        dsimp only [] at h
        cases h
        have hstep := scanStep_number_nonneg ln c cs col
        rw [hs] at hstep
        exact hstep
      | cont ts1 es1 rest col2 =>
        rw [hs] at h
        dsimp only [] at h
        cases hr : scanLineF n ln rest col2 with
        | error e =>
          rw [hr] at h
          cases h
        | ok p =>
          rcases p with ⟨ts2, es2⟩
          rw [hr] at h
          dsimp only [] at h
          cases h
          intro t ht htype
          rcases List.mem_append.mp ht with h1 | h2
          · have hstep := scanStep_number_nonneg ln c cs col
            rw [hs] at hstep
            exact hstep t h1 htype
          · exact ih ln rest col2 hr t h2 htype

/-- Every NUMBER token the line loop produces carries a nonnegative numeric
value. -/
theorem lexLines_number_nonneg : ∀ (lines : List (List Char)) (idx cur : ℕ)
    {ts : List Token} {es : List CompilerError} {fl : ℕ},
    lexLines idx cur lines = .ok (ts, es, fl) →
    ∀ t ∈ ts, t.type = "NUMBER" → ∃ q : ℚ, t.value = .num q ∧ 0 ≤ q := by
  intro lines
  induction lines with
  | nil =>
    intro idx cur ts es fl h
    cases h
    intro t ht
    cases ht
  | cons raw rest ihl =>
    intro idx cur ts es fl h
    rw [lexLines] at h
    by_cases hskip : ((pyStrip raw).isEmpty || startsWithComment (pyStrip raw)) = true
    · rw [if_pos hskip] at h
      exact ihl _ _ h
    · rw [if_neg hskip] at h
      cases hsc : scanLine (idx + 1) (pyStrip raw) with
      | error e =>
        rw [hsc] at h
        cases h
      | ok p =>
        rcases p with ⟨ts1, es1⟩
        rw [hsc] at h
        dsimp only [] at h
        cases hrec : lexLines (idx + 1) (idx + 1) rest with
        | error e =>
          rw [hrec] at h
          cases h
        | ok q =>
          rcases q with ⟨ts2, es2, fl2⟩
          rw [hrec] at h
          dsimp only [] at h
          cases h
          intro t ht htype
          rcases List.mem_append.mp ht with h1 | h2
          · exact scanLineF_number_nonneg _ _ _ _ hsc t h1 htype
          · exact ihl _ _ hrec t h2 htype

/-- C10 (confirmed): the lexer has no negative or fraction-leading numeric
literals — a NUMBER token is started only on a digit, so `"-3"` lexes as
OP_SUB followed by NUMBER 3.0, `".5"` lexes as an unrecognized-character
LEXICAL diagnostic for the period followed by NUMBER 5.0, and every NUMBER
token any input produces has a nonnegative value. -/
theorem claim_C10 :
    lexical_analysis "-3" = .ok ([⟨"OP_SUB", .str "-", 1, 0⟩, ⟨"NUMBER", .num 3, 1, 1⟩], [], 1)
    ∧ lexical_analysis ".5" = .ok ([⟨"NUMBER", .num 5, 1, 1⟩], [⟨1, "LÉXICO", unrecognizedMsg '.'⟩], 1)
    ∧ (∀ (code : String) (ts : List Token) (es : List CompilerError) (fl : ℕ),
        lexical_analysis code = .ok (ts, es, fl) →
        ∀ t ∈ ts, t.type = "NUMBER" → ∃ q : ℚ, t.value = .num q ∧ 0 ≤ q) := by
  refine ⟨rfl, rfl, ?_⟩
  intro code ts es fl h
  exact lexLines_number_nonneg _ _ _ h

/-- C10 (witness): the nonnegativity invariant applied to the NUMBER token
of `"-3"`. -/
theorem claim_C10_witness :
    ∃ q : ℚ, (⟨"NUMBER", .num 3, 1, 1⟩ : Token).value = .num q ∧ 0 ≤ q :=
  claim_C10.2.2 "-3" [⟨"OP_SUB", .str "-", 1, 0⟩, ⟨"NUMBER", .num 3, 1, 1⟩] [] 1 (by rfl)
    ⟨"NUMBER", .num 3, 1, 1⟩ (by simp) rfl

/-- An unmatched opening quote makes the scanner consume the rest of the
line, emit no token, append the unterminated-string diagnostic and exit the
line loop. -/
theorem scanStep_quote_unterminated {s : List Char} {ln col : ℕ}
    (hq : ∀ d ∈ s, d ≠ quoteC) :
    scanStep ln quoteC s col = .stop [] [⟨ln, "LÉXICO", "String sin cerrar"⟩] := by
  unfold scanStep
  have hdw : s.dropWhile (fun d => d ≠ quoteC) = [] := by
    apply dropWhile_all
    intro d hd
    simp [hq d hd]
  rw [if_neg (by decide), if_neg (by decide), if_pos rfl]
  dsimp only []
  rw [hdw]

/-- Splitting lines: a newline after a newline-free prefix closes the
current line. -/
theorem pySplitlinesAux_append : ∀ (xs : List Char) (cur ys : List Char),
    (∀ d ∈ xs, d ≠ '\n') →
    pySplitlinesAux cur (xs ++ '\n' :: ys) = (cur.reverse ++ xs) :: pySplitlinesAux [] ys := by
  intro xs
  induction xs with
  | nil =>
    intro cur ys _
    simp [pySplitlinesAux]
  | cons x xs ih =>
    intro cur ys hx
    have hxn : x ≠ '\n' := hx x (List.mem_cons_self x xs)
    show pySplitlinesAux cur (x :: (xs ++ '\n' :: ys)) = _
    rw [pySplitlinesAux]
    rw [if_neg hxn]
    rw [ih (x :: cur) ys (fun d hd => hx d (List.mem_cons_of_mem x hd))]
    simp

/-- `dropWhile` stops at the boundary of an appended tail whose head fails
the predicate. -/
theorem dropWhile_append_head_fails {p : Char → Bool} :
    ∀ (xs : List Char) (m : List Char),
    (∀ d, m.head? = some d → p d = false) →
    (xs ++ m).dropWhile p = xs.dropWhile p ++ m := by
  intro xs
  induction xs with
  | nil =>
    intro m hm
    cases m with
    | nil => rfl
    | cons d ds =>
      show (d :: ds).dropWhile p = [].dropWhile p ++ d :: ds
      rw [List.dropWhile_cons, hm d rfl]
      simp
  | cons x xs ih =>
    intro m hm
    show ((x :: xs) ++ m).dropWhile p = (x :: xs).dropWhile p ++ m
    rw [List.cons_append, List.dropWhile_cons, List.dropWhile_cons]
    by_cases hx : p x = true
    · rw [if_pos hx, if_pos hx]
      exact ih m hm
    · rw [if_neg hx, if_neg hx]
      rfl

/-- Stripping a line that begins `foo "` removes only trailing whitespace
of the unterminated tail. -/
theorem pyStrip_foo_quote (s : List Char) :
    pyStrip ("foo ".data ++ quoteC :: s) =
      "foo ".data ++ quoteC :: ((s.reverse.dropWhile pyIsSpace).reverse) := by
  unfold pyStrip
  rw [show ("foo ".data ++ quoteC :: s : List Char) = 'f' :: ("oo ".data ++ quoteC :: s) from rfl]
  rw [List.dropWhile_cons, if_neg (by decide)]
  rw [show ('f' :: ("oo ".data ++ quoteC :: s) : List Char) = "foo ".data ++ (quoteC :: s) from rfl]
  rw [List.reverse_append, List.reverse_cons]
  rw [show ("foo ".data : List Char).reverse = [' ', 'o', 'o', 'f'] from rfl]
  rw [List.append_assoc]
  rw [show ([quoteC] ++ [' ', 'o', 'o', 'f'] : List Char) = [quoteC, ' ', 'o', 'o', 'f'] from rfl]
  rw [dropWhile_append_head_fails _ _ (fun d hd => by cases hd; decide)]
  rw [List.reverse_append]
  rw [show ([quoteC, ' ', 'o', 'o', 'f'] : List Char).reverse = ['f', 'o', 'o', ' ', quoteC] from rfl]
  rfl

/-- Elements of the right-stripped tail come from the tail. -/
theorem mem_rstrip {s : List Char} {d : Char}
    (h : d ∈ (s.reverse.dropWhile pyIsSpace).reverse) : d ∈ s := by
  rw [List.mem_reverse] at h
  have := mem_of_mem_dropWhile h
  rwa [List.mem_reverse] at this

/-- C5 (confirmed): a line whose double quote is never closed — here
`foo "<s>` for any unterminated tail `s` free of quotes and of every
character `str.splitlines` treats as a line boundary, followed by a second
line `bar` — produces exactly one LEXICAL diagnostic carrying line 1, no
STRING token for the unterminated literal, the IDENTIFIER token scanned
earlier on the line, and scanning resumes on line 2, which still yields its
own token. -/
theorem claim_C5 (s : List Char)
    (hs : ∀ d ∈ s, d ≠ quoteC ∧ pyIsLineBreak d = false) :
    lexChars ("foo ".data ++ quoteC :: (s ++ '\n' :: "bar".data)) =
      .ok ([⟨"IDENTIFIER", .str "foo", 1, 0⟩, ⟨"IDENTIFIER", .str "bar", 2, 0⟩],
           [⟨1, "LÉXICO", "String sin cerrar"⟩], 2) := by
  have hscan : scanLine 1 ("foo ".data ++ quoteC :: ((s.reverse.dropWhile pyIsSpace).reverse))
      = .ok ([⟨"IDENTIFIER", .str "foo", 1, 0⟩], [⟨1, "LÉXICO", "String sin cerrar"⟩]) := by
    show scanLineAt 1 ('f' :: (['o', 'o'] ++
      (' ' :: quoteC :: ((s.reverse.dropWhile pyIsSpace).reverse)))) 0 = _
    rw [scanLineAt_cons_cont (scanStep_ident_step (by decide) (by decide)
      (fun d hd => by cases hd; decide))]
    rw [show scanLineAt 1 (' ' :: quoteC :: ((s.reverse.dropWhile pyIsSpace).reverse))
          (0 + (['f', 'o', 'o'] : List Char).length)
        = scanLineAt 1 (' ' :: quoteC :: ((s.reverse.dropWhile pyIsSpace).reverse)) 3 from rfl]
    rw [scanLineAt_cons_cont (show scanStep 1 ' '
        (quoteC :: ((s.reverse.dropWhile pyIsSpace).reverse)) 3
      = .cont [] [] (quoteC :: ((s.reverse.dropWhile pyIsSpace).reverse)) (3 + 1) from rfl)]
    rw [scanLineAt_cons_stop (scanStep_quote_unterminated
      (fun d hd => (hs d (mem_rstrip hd)).1))]
    rfl
  unfold lexChars
  rw [show ("foo ".data ++ quoteC :: (s ++ '\n' :: "bar".data) : List Char)
      = ("foo ".data ++ quoteC :: s) ++ '\n' :: "bar".data by simp]
  unfold pySplitlines
  rw [pySplitlinesAux_append _ _ _ (by
    intro d hd
    rcases List.mem_append.mp hd with h1 | h1
    · fin_cases h1 <;> decide
    · rcases List.mem_cons.mp h1 with rfl | h2
      · decide
      · intro hEq
        subst hEq
        exact absurd ((hs _ h2).2) (by decide))]
  rw [show pySplitlinesAux [] "bar".data = ["bar".data] from rfl]
  simp only [List.reverse_nil, List.nil_append]
  rw [lexLines]
  rw [pyStrip_foo_quote]
  have hcond : (("foo ".data ++ quoteC :: ((s.reverse.dropWhile pyIsSpace).reverse)
      : List Char).isEmpty
      || startsWithComment ("foo ".data ++ quoteC ::
          ((s.reverse.dropWhile pyIsSpace).reverse))) = false := rfl
  simp only [hcond, Bool.false_eq_true, if_false]
  rw [show ((0 : ℕ) + 1) = 1 from rfl]
  rw [hscan]
  dsimp only []
  rw [show lexLines 1 1 [['b', 'a', 'r']]
      = .ok ([⟨"IDENTIFIER", .str "bar", 2, 0⟩], [], 2) from rfl]
  rfl

/-- C5 (witness): the theorem applied to the unterminated tail `x` — the
input is the two lines `foo "x` and `bar`. -/
theorem claim_C5_witness :
    lexChars ("foo ".data ++ quoteC :: (['x'] ++ '\n' :: "bar".data)) =
      .ok ([⟨"IDENTIFIER", .str "foo", 1, 0⟩, ⟨"IDENTIFIER", .str "bar", 2, 0⟩],
           [⟨1, "LÉXICO", "String sin cerrar"⟩], 2) :=
  claim_C5 ['x'] (by decide)
